import Mathlib

/-!
Shallow embedding of `src/benchmark.c`, a microbenchmark driver for UTF-16
validation routines, together with proofs about its adaptive measurement
loop, its reporter, its file-loading code and its counter bookkeeping.

Times are modelled as exact rationals (the C code uses `double`), machine
counters as natural numbers, and the per-pass behaviour of the adaptive
loop in `run_test` as a function over a schedule of pass outcomes supplied
by the environment (the kernel clock and the candidate routine).
-/

namespace Benchmark

/-- Embeds the `TIME_GOAL` macro: run each benchmark for at least this many
seconds (default 2.0). -/
def TIME_GOAL : ℚ := 2

/-- Embeds `struct timespec`: seconds and nanoseconds of one clock reading. -/
structure Timespec where
  tv_sec : Int
  tv_nsec : Int
deriving DecidableEq

/-- Embeds `tsdiff`: difference of two timespecs as a real number of seconds,
with the sub-second borrow correction performed when `nsec` underflows. -/
def tsdiff (start stop : Timespec) : ℚ :=
  if stop.tv_nsec - start.tv_nsec < 0 then
    ((stop.tv_sec - start.tv_sec - 1 : Int) : ℚ)
      + ((stop.tv_nsec - start.tv_nsec + 1000000000 : Int) : ℚ) * (1 / 1000000000)
  else
    ((stop.tv_sec - start.tv_sec : Int) : ℚ)
      + ((stop.tv_nsec - start.tv_nsec : Int) : ℚ) * (1 / 1000000000)

/-- Embeds `struct counters`: one measurement point, a CPU-time reading paired
with the raw vector returned by the grouped counter read. -/
structure CtrSnap where
  ts : Timespec
  counters : List Nat
deriving DecidableEq

/-- Embeds the `m` update performed by `run_test` when a pass finishes under
`TIME_GOAL`: double `m` when under half the goal, otherwise take the
overshoot-biased re-estimate `ceil(m * TIME_GOAL * 1.05 / elapsed)` unless it
fails to exceed `m`, in which case take `m + 1`. -/
def update_m (m : Nat) (elapsed : ℚ) : Nat :=
  if elapsed < TIME_GOAL * (1 / 2) then m * 2
  else if (Int.ceil ((m : ℚ) * TIME_GOAL * (105 / 100) / elapsed)).toNat > m
    then (Int.ceil ((m : ℚ) * TIME_GOAL * (105 / 100) / elapsed)).toNat
    else m + 1

/-- One iteration of the adaptive loop as observed by the driver: either one
of the three calls (`reset_counters`, `test`, `reset_counters`) failed, or the
pass completed and the two measurement points were captured. -/
inductive PassResult where
  | fail : PassResult
  | ok (start stop : CtrSnap) : PassResult
deriving DecidableEq

/-- Outcome of `run_test`: `failed` models printing `FAIL` and returning with
no result line, `accepted` models exiting the loop and handing the final
pass's measurement points and `m` to `print_results`, `outOfFuel` means the
schedule ended while the loop was still running. -/
inductive RunOutcome where
  | outOfFuel : RunOutcome
  | failed : RunOutcome
  | accepted (start stop : CtrSnap) (m : Nat) : RunOutcome
deriving DecidableEq

/-- Observable trace of one `run_test` call: its outcome, the value of `m` at
each completed pass, and whether each completed pass printed the
`did not validate` warning from `test_utf16le_validate`. -/
structure LoopOut where
  outcome : RunOutcome
  ms : List Nat
  warns : List Bool
deriving DecidableEq

/-- Embeds the `for (;; first_run = 0)` loop of `run_test`, composed with the
validation part of `test_utf16le_validate`: `len` is the element count
`n / sizeof(char16_t)` and `vres` the value returned by each of the `m`
identical `validate(data, len)` calls, so the accumulated `sum` is
`vres * m` and the warning fires when it differs from `len * m`.  A pass
under `TIME_GOAL` updates `m` and repeats, a first pass at or over the goal
repeats with the same `m`, and a later pass at or over the goal is accepted.
The helper `pushPass` prepends one completed (but not accepted) pass to the
trace of the remaining loop iterations. -/
def pushPass (m : Nat) (w : Bool) (r : LoopOut) : LoopOut :=
  ⟨r.outcome, m :: r.ms, w :: r.warns⟩

def run_test_loop (len vres : Nat) : List PassResult → Nat → Bool → LoopOut
  | [], _, _ => ⟨.outOfFuel, [], []⟩
  | .fail :: _, _, _ => ⟨.failed, [], []⟩
  | .ok s e :: rest, m, first_run =>
    if tsdiff s.ts e.ts < TIME_GOAL then
      pushPass m (decide (vres * m ≠ len * m))
        (run_test_loop len vres rest (update_m m (tsdiff s.ts e.ts)) false)
    else if first_run then
      pushPass m (decide (vres * m ≠ len * m)) (run_test_loop len vres rest m false)
    else ⟨.accepted s e m, [m], [decide (vres * m ≠ len * m)]⟩

/-- Embeds `run_test`'s entry state: `m = 1` and `first_run = 1`. -/
def run_test (len vres : Nat) (sched : List PassResult) : LoopOut :=
  run_test_loop len vres sched 1 true

/-- Embeds the `EVENT_COUNT` enumerator: two configured hardware events
(CPU cycles and retired instructions). -/
def EVENT_COUNT : Nat := 2

/-- Subtraction of two `uint64_t` values, wrapping modulo `2^64` (written as
its decimal literal `18446744073709551616`) exactly as the C expression
`end[2*j+1] - start[2*j+1]` does. -/
def sub64 (a b : Nat) : Nat :=
  (a + (18446744073709551616 - b % 18446744073709551616)) % 18446744073709551616

/-- Embeds the globals set up by `init_counters`: the per-event file
descriptors (`-1` when `perf_event_open` failed), the count of successfully
opened counters, and the group leader descriptor. -/
structure CounterConfig where
  fds : List Int
  num_counters : Nat
  event_group : Int
deriving DecidableEq

/-- Embeds `init_counters`: for each configured event the environment either
yields a file descriptor (`some fd`) or fails (`none`, the syscall returning
`-1`); successes bump `num_counters` and the first success becomes the group
leader. -/
def init_counters (opens : List (Option Nat)) : CounterConfig :=
  opens.foldl
    (fun cfg o =>
      match o with
      | none => ⟨cfg.fds ++ [-1], cfg.num_counters, cfg.event_group⟩
      | some fd =>
        ⟨cfg.fds ++ [(fd : Int)], cfg.num_counters + 1,
          if cfg.event_group = -1 then (fd : Int) else cfg.event_group⟩)
    ⟨[], 0, -1⟩

/-- Loop body of `counterdiff`, iterating `i` upward while `i < EVENT_COUNT`.
The fuel argument makes the recursion structural; `counterdiff` passes
`EVENT_COUNT - i0` which is exactly the number of iterations the C loop
performs from initial value `i0`. -/
def counterdiffGo (fds : List Int) (startc stopc : List Nat) :
    Nat → Nat → Nat → List Nat → List Nat
  | 0, _, _, out => out
  | fuel + 1, i, j, out =>
    if i < EVENT_COUNT then
      if fds.getD i (-1) = -1 then
        counterdiffGo fds startc stopc fuel (i + 1) j (out.set i 0)
      else
        counterdiffGo fds startc stopc fuel (i + 1) (j + 1)
          (out.set i (sub64 (stopc.getD (2 * j + 1) 0) (startc.getD (2 * j + 1) 0)))
    else out

/-- Embeds `counterdiff`.  The C loop header reads `for (i, j = 0; i < EVENT_COUNT; i++)`:
the comma expression initialises `j` but merely evaluates `i`, so `i` starts
at whatever indeterminate value the stack held; that value is made explicit
here as the parameter `i0` (the intended code is clearly `i0 = 0`).  `out0`
models the likewise-uninitialised contents of the caller's `counts[]` array:
cells the loop never writes keep their junk value. -/
def counterdiff (fds : List Int) (i0 : Nat) (out0 startc stopc : List Nat) : List Nat :=
  counterdiffGo fds startc stopc (EVENT_COUNT - i0) i0 0 out0

/-- Observable content of the line printed by `print_results`: the iteration
count column, the two timing-derived columns, and the three hardware-derived
columns when they are emitted (`none` models the early newline of the
`else putchar` branch). -/
structure ReportLine where
  m : Nat
  ns_per_op : ℚ
  mb_per_s : ℚ
  hw : Option (ℚ × ℚ × ℚ)
deriving DecidableEq

/-- Embeds `print_results`: derives `elapsed` via `tsdiff`, the counter deltas
via `counterdiff` (with `i0` and `junk` the indeterminate initial values of
the uninitialised locals `i` and `counts[]`), prints `ns/op` and `MB/s`, and
prints the `cy/B`, `ins/B` and `ipc` columns only when
`num_counters == EVENT_COUNT`. -/
def print_results (cfg : CounterConfig) (i0 : Nat) (junk : Nat × Nat)
    (startc stopc : CtrSnap) (n m : Nat) : ReportLine :=
  let elapsed := tsdiff startc.ts stopc.ts
  let counts := counterdiff cfg.fds i0 [junk.1, junk.2] startc.counters stopc.counters
  { m := m
    ns_per_op := elapsed * 1000000000 / (m : ℚ)
    mb_per_s := (1 / 1000000) * (n : ℚ) * (m : ℚ) / elapsed
    hw :=
      if cfg.num_counters = EVENT_COUNT then
        some (((counts.getD 0 0 : Nat) : ℚ) / ((n : ℚ) * (m : ℚ)),
              ((counts.getD 1 0 : Nat) : ℚ) / ((n : ℚ) * (m : ℚ)),
              ((counts.getD 1 0 : Nat) : ℚ) / ((counts.getD 0 0 : Nat) : ℚ))
      else none }

/-- Embeds `len = n / sizeof *data` in `test_utf16le_validate`: the element
count of the `char16_t` buffer, computed by integer division. -/
def buffer_len (n : Nat) : Nat := n / 2

/-- Embeds the `memory_allocate(size)` macro in the default build (no
`ALIGN`): `malloc(size)`, a block of exactly `size` bytes. -/
def memory_allocate (size : Nat) : Nat := size

/-- Number of bytes `test_utf16le_validate` allocates for a declared byte
length `n`: `memory_allocate(len * sizeof *data)` with `len = n / 2`. -/
def allocatedBytes (n : Nat) : Nat := memory_allocate (buffer_len n * 2)

/-- Embeds the diagnostic printed to `stderr` when `read` hits end-of-file
early: `"%s: file shorter than expected (%zu B < %zu B)"` with the bytes read
so far (`n - rem`) and the declared length `n`. -/
def shortMsg (filename : String) (pos n : Nat) : String :=
  filename ++ ": file shorter than expected (" ++ toString pos ++ " B < "
    ++ toString n ++ " B)"

/-- Embeds the `while (rem > 0)` read loop of `test_utf16le_validate` over a
schedule of the byte counts successive `read` calls return.  `pos = n - rem`
is the write offset; a zero-byte read means end-of-file and produces the
short-file error (the C code then closes, frees and returns `-1`); when `rem`
reaches zero the loop exits with `pos` bytes read.  `none` means the schedule
ended while the loop still wanted data. -/
def readLoop (filename : String) (n : Nat) : List Nat → Nat → Option (Except String Nat)
  | [], pos => if n - pos = 0 then some (.ok pos) else none
  | c :: rest, pos =>
    if n - pos = 0 then some (.ok pos)
    else if c = 0 then some (.error (shortMsg filename pos n))
    else readLoop filename n rest (pos + c)

/-- Recognises the read schedules POSIX allows against a regular file of `F`
bytes: every `read` returns at most the `rem = n - pos` bytes requested,
returns at least one byte (but no more than remain) while the offset is
before end-of-file, and returns exactly `0` at end-of-file. -/
def validSched (n F : Nat) : List Nat → Nat → Bool
  | [], _ => true
  | c :: rest, pos =>
    decide (c ≤ n - pos) &&
    (if pos < F then decide (1 ≤ c ∧ c ≤ F - pos) else decide (c = 0)) &&
    validSched n F rest (pos + c)

/-- Concrete measurement point: t = 0 s, grouped read `{nr=2, 5, id, 7, id}`. -/
def snapA : CtrSnap := ⟨⟨0, 0⟩, [2, 5, 0, 7, 0]⟩

/-- Concrete measurement point one second after `snapA`. -/
def snapB : CtrSnap := ⟨⟨1, 0⟩, [2, 9, 0, 11, 0]⟩

/-- Concrete measurement point three seconds after `snapA`, past the 2 s
`TIME_GOAL`. -/
def snapC : CtrSnap := ⟨⟨3, 0⟩, [2, 9, 0, 11, 0]⟩

lemma le_update_m (m : Nat) (el : ℚ) : m ≤ update_m m el := by
  unfold update_m
  split
  · omega
  · split <;> omega

lemma tsdiff_eq (a b : Timespec) :
    tsdiff a b = ((b.tv_sec - a.tv_sec : ℤ) : ℚ)
      + ((b.tv_nsec - a.tv_nsec : ℤ) : ℚ) / 1000000000 := by
  unfold tsdiff
  split
  · push_cast
    ring
  · push_cast
    ring

lemma loop_accepted_ms_length (len vres : Nat) (sched : List PassResult) :
    ∀ m b s e mf, (run_test_loop len vres sched m b).outcome = .accepted s e mf →
      cond b 2 1 ≤ (run_test_loop len vres sched m b).ms.length := by
  induction sched with
  | nil => intro m b s e mf h; simp [run_test_loop] at h
  | cons p rest ih =>
    intro m b s e mf h
    cases p with
    | fail => simp [run_test_loop] at h
    | ok s0 e0 =>
      by_cases hlt : tsdiff s0.ts e0.ts < TIME_GOAL
      · simp only [run_test_loop, if_pos hlt, pushPass] at h ⊢
        have h2 := ih _ false s e mf h
        simp only [cond_false] at h2
        cases b with
        | false => simp
        | true =>
          simp
          omega
      · cases b with
        | false =>
          simp only [run_test_loop, if_neg hlt, Bool.false_eq_true, if_false] at h ⊢
          simp
        | true =>
          simp only [run_test_loop, if_neg hlt, if_pos rfl, pushPass] at h ⊢
          have h2 := ih _ false s e mf h
          simp only [cond_false] at h2
          simp
          omega

lemma loop_accepted_elapsed (len vres : Nat) (sched : List PassResult) :
    ∀ m b s e mf, (run_test_loop len vres sched m b).outcome = .accepted s e mf →
      TIME_GOAL ≤ tsdiff s.ts e.ts := by
  induction sched with
  | nil => intro m b s e mf h; simp [run_test_loop] at h
  | cons p rest ih =>
    intro m b s e mf h
    cases p with
    | fail => simp [run_test_loop] at h
    | ok s0 e0 =>
      by_cases hlt : tsdiff s0.ts e0.ts < TIME_GOAL
      · simp only [run_test_loop, if_pos hlt, pushPass] at h
        exact ih _ false s e mf h
      · cases b with
        | false =>
          simp only [run_test_loop, if_neg hlt, Bool.false_eq_true, if_false] at h
          simp only [RunOutcome.accepted.injEq] at h
          obtain ⟨rfl, rfl, rfl⟩ := h
          exact le_of_not_lt hlt
        | true =>
          simp only [run_test_loop, if_neg hlt, if_pos rfl, pushPass] at h
          exact ih _ false s e mf h

lemma loop_ms_head (len vres : Nat) (sched : List PassResult) (m : Nat) (b : Bool) :
    (run_test_loop len vres sched m b).ms = []
    ∨ (run_test_loop len vres sched m b).ms.head? = some m := by
  cases sched with
  | nil => left; rfl
  | cons p rest =>
    cases p with
    | fail => left; rfl
    | ok s0 e0 =>
      right
      by_cases hlt : tsdiff s0.ts e0.ts < TIME_GOAL
      · simp [run_test_loop, hlt, pushPass]
      · cases b <;> simp [run_test_loop, hlt, pushPass]

lemma loop_ms_chain (len vres : Nat) (sched : List PassResult) :
    ∀ m b, List.Chain' (· ≤ ·) (run_test_loop len vres sched m b).ms := by
  induction sched with
  | nil => intro m b; simp [run_test_loop]
  | cons p rest ih =>
    intro m b
    cases p with
    | fail => simp [run_test_loop]
    | ok s0 e0 =>
      by_cases hlt : tsdiff s0.ts e0.ts < TIME_GOAL
      · simp only [run_test_loop, if_pos hlt, pushPass]
        rw [List.chain'_cons']
        refine ⟨?_, ih _ false⟩
        intro y hy
        rcases loop_ms_head len vres rest (update_m m (tsdiff s0.ts e0.ts)) false with hnil | hh
        · rw [hnil] at hy
          simp at hy
        · rw [hh] at hy
          simp only [Option.mem_def, Option.some.injEq] at hy
          subst hy
          exact le_update_m m (tsdiff s0.ts e0.ts)
      · cases b with
        | false => simp [run_test_loop, hlt]
        | true =>
          simp only [run_test_loop, if_neg hlt, eq_self_iff_true, if_true, pushPass]
          rw [List.chain'_cons']
          refine ⟨?_, ih _ false⟩
          intro y hy
          rcases loop_ms_head len vres rest m false with hnil | hh
          · rw [hnil] at hy
            simp at hy
          · rw [hh] at hy
            simp only [Option.mem_def, Option.some.injEq] at hy
            subst hy
            exact le_rfl

lemma loop_warns_eq_map (len vres : Nat) (sched : List PassResult) :
    ∀ m b, (run_test_loop len vres sched m b).warns
      = (run_test_loop len vres sched m b).ms.map
          (fun mi => decide (vres * mi ≠ len * mi)) := by
  induction sched with
  | nil => intro m b; simp [run_test_loop]
  | cons p rest ih =>
    intro m b
    cases p with
    | fail => simp [run_test_loop]
    | ok s0 e0 =>
      by_cases hlt : tsdiff s0.ts e0.ts < TIME_GOAL
      · simp only [run_test_loop, if_pos hlt, pushPass, List.map_cons]
        rw [ih _ false]
      · cases b with
        | false => simp [run_test_loop, hlt]
        | true =>
          simp only [run_test_loop, if_neg hlt, eq_self_iff_true, if_true, pushPass,
            List.map_cons]
          rw [ih _ false]

lemma loop_outcome_indep (len vres len2 vres2 : Nat) (sched : List PassResult) :
    ∀ m b, (run_test_loop len vres sched m b).outcome
      = (run_test_loop len2 vres2 sched m b).outcome := by
  induction sched with
  | nil => intro m b; rfl
  | cons p rest ih =>
    intro m b
    cases p with
    | fail => rfl
    | ok s0 e0 =>
      by_cases hlt : tsdiff s0.ts e0.ts < TIME_GOAL
      · simp only [run_test_loop, if_pos hlt, pushPass]
        exact ih _ false
      · cases b with
        | false => simp [run_test_loop, hlt]
        | true =>
          simp only [run_test_loop, if_neg hlt, if_pos rfl, pushPass]
          exact ih _ false

/-- Claim C1: every benchmark case that produces a result executes at least
two completed passes, and a first pass that already reaches `TIME_GOAL` while
the warm-up flag is set is discarded and the loop repeats with the same
`m = 1`, so the reported numbers never come from the first pass. -/
theorem warmup_at_least_two_passes (len vres : Nat) (sched : List PassResult) :
    (∀ s e mf, (run_test len vres sched).outcome = .accepted s e mf →
        2 ≤ (run_test len vres sched).ms.length)
    ∧ ∀ s e rest, sched = .ok s e :: rest → ¬ tsdiff s.ts e.ts < TIME_GOAL →
        (run_test len vres sched).outcome
          = (run_test_loop len vres rest 1 false).outcome := by
  constructor
  · intro s e mf h
    simpa using loop_accepted_ms_length len vres sched 1 true s e mf h
  · intro s e rest hs hge
    subst hs
    simp [run_test, run_test_loop, hge, pushPass]

/-- Witness for C1: a run whose two passes both reach the time goal is
accepted only on the second pass, so two passes were measured. -/
theorem warmup_at_least_two_passes_witness :
    2 ≤ (run_test 1 0 [.ok snapA snapC, .ok snapA snapC]).ms.length :=
  (warmup_at_least_two_passes 1 0 [.ok snapA snapC, .ok snapA snapC]).1 snapA snapC 1
    (by norm_num [run_test, run_test_loop, tsdiff, TIME_GOAL, pushPass, snapA, snapC])

/-- Claim C2: a pass finishing under `TIME_GOAL` is discarded and the loop
repeats with `update_m`, which doubles `m` below half the goal and otherwise
takes `max (m + 1) (ceil (m * TIME_GOAL * 1.05 / elapsed))`. -/
theorem growth_policy_update (len vres m : Nat) (b : Bool) (s e : CtrSnap)
    (rest : List PassResult) (h : tsdiff s.ts e.ts < TIME_GOAL) :
    (run_test_loop len vres (.ok s e :: rest) m b).outcome
      = (run_test_loop len vres rest (update_m m (tsdiff s.ts e.ts)) false).outcome
    ∧ (tsdiff s.ts e.ts < TIME_GOAL / 2 →
        update_m m (tsdiff s.ts e.ts) = m * 2)
    ∧ (¬ tsdiff s.ts e.ts < TIME_GOAL / 2 →
        update_m m (tsdiff s.ts e.ts)
          = max (m + 1)
              (Int.ceil ((m : ℚ) * TIME_GOAL * (105 / 100) / tsdiff s.ts e.ts)).toNat) := by
  refine ⟨?_, ?_, ?_⟩
  · simp [run_test_loop, h, pushPass]
  · intro h2
    unfold update_m
    rw [show TIME_GOAL * (1 / 2 : ℚ) = TIME_GOAL / 2 by ring, if_pos h2]
  · intro h2
    unfold update_m
    rw [show TIME_GOAL * (1 / 2 : ℚ) = TIME_GOAL / 2 by ring, if_neg h2]
    split <;> omega

/-- Witness for C2: a pass of 1 s against the 2 s goal with `m = 4` lands in
the re-estimate branch and yields `max 5 (ceil 8.4) = 9`. -/
theorem growth_policy_update_witness :
    update_m 4 (tsdiff snapA.ts snapB.ts)
      = max 5 (Int.ceil (((4 : Nat) : ℚ) * TIME_GOAL * (105 / 100)
          / tsdiff snapA.ts snapB.ts)).toNat :=
  (growth_policy_update 1 0 4 true snapA snapB []
      (by norm_num [tsdiff, TIME_GOAL, snapA, snapB])).2.2
    (by norm_num [tsdiff, TIME_GOAL, snapA, snapB])

/-- Claim C3: within one case `m` starts at 1 and the sequence of `m` values
over the passes of the adaptive loop is monotonically non-decreasing. -/
theorem m_monotone_nondecreasing (len vres : Nat) (sched : List PassResult) :
    ((run_test len vres sched).ms = [] ∨ (run_test len vres sched).ms.head? = some 1)
    ∧ List.Chain' (· ≤ ·) (run_test len vres sched).ms :=
  ⟨loop_ms_head len vres sched 1 true, loop_ms_chain len vres sched 1 true⟩

/-- Claim C4: whenever the driver accepts a pass and prints a result line,
the elapsed time of that pass satisfies `elapsed >= TIME_GOAL`, where
`elapsed` is `tsdiff` of the pass's two clock readings and `tsdiff`'s
borrow correction computes the exact real-number difference. -/
theorem accepted_pass_meets_time_goal (len vres : Nat) (sched : List PassResult)
    (s e : CtrSnap) (mf : Nat)
    (h : (run_test len vres sched).outcome = .accepted s e mf) :
    TIME_GOAL ≤ tsdiff s.ts e.ts
    ∧ tsdiff s.ts e.ts
        = ((e.ts.tv_sec - s.ts.tv_sec : ℤ) : ℚ)
          + ((e.ts.tv_nsec - s.ts.tv_nsec : ℤ) : ℚ) / 1000000000 :=
  ⟨loop_accepted_elapsed len vres sched 1 true s e mf h, tsdiff_eq s.ts e.ts⟩

/-- Witness for C4: the accepted pass of a concrete two-pass run has
`tsdiff = 3 ≥ TIME_GOAL`. -/
theorem accepted_pass_meets_time_goal_witness :
    TIME_GOAL ≤ tsdiff snapA.ts snapC.ts
    ∧ tsdiff snapA.ts snapC.ts
        = ((snapC.ts.tv_sec - snapA.ts.tv_sec : ℤ) : ℚ)
          + ((snapC.ts.tv_nsec - snapA.ts.tv_nsec : ℤ) : ℚ) / 1000000000 :=
  accepted_pass_meets_time_goal 1 0 [.ok snapA snapC, .ok snapA snapC] snapA snapC 1
    (by norm_num [run_test, run_test_loop, tsdiff, TIME_GOAL, pushPass, snapA, snapC])

/-- Counterexample to C7: the mismatch check runs inside
`test_utf16le_validate`, hence on every pass, not only on the final accepted
one.  In this run of two passes (the first being the discarded warm-up pass),
a routine returning 0 instead of `len = 1` triggers the warning on both
passes; were the claim true, only the second pass could warn. -/
theorem warmup_pass_also_warns :
    (run_test 1 0 [.ok snapA snapC, .ok snapA snapC]).warns = [true, true]
    ∧ (run_test 1 0 [.ok snapA snapC, .ok snapA snapC]).outcome
        = .accepted snapA snapC 1 := by
  norm_num [run_test, run_test_loop, tsdiff, TIME_GOAL, pushPass, snapA, snapC]

/-- Claim C7 as amended: the correctness check runs on every completed pass
(warm-up and growth passes included), warning exactly when that pass's
accumulated count `vres * m` differs from `len * m`; the check never affects
the control flow, so the case still produces its performance result line. -/
theorem mismatch_checked_every_pass (len vres len2 vres2 : Nat)
    (sched : List PassResult) :
    (run_test len vres sched).warns
      = (run_test len vres sched).ms.map (fun mi => decide (vres * mi ≠ len * mi))
    ∧ (run_test len vres sched).outcome = (run_test len2 vres2 sched).outcome :=
  ⟨loop_warns_eq_map len vres sched 1 true, loop_outcome_indep len vres len2 vres2 sched 1 true⟩

lemma readLoop_short (fn : String) (n F : Nat) (sched : List Nat) :
    ∀ pos r, validSched n F sched pos = true → pos ≤ F → F < n →
      readLoop fn n sched pos = some r → r = .error (shortMsg fn F n) := by
  induction sched with
  | nil =>
    intro pos r hv hpF hFn hr
    simp only [readLoop] at hr
    rw [if_neg (by omega)] at hr
    exact absurd hr (by simp)
  | cons c rest ih =>
    intro pos r hv hpF hFn hr
    simp only [validSched, Bool.and_eq_true, decide_eq_true_eq] at hv
    obtain ⟨⟨hc1, hc2⟩, hv⟩ := hv
    simp only [readLoop] at hr
    rw [if_neg (by omega)] at hr
    by_cases hposF : pos < F
    · rw [if_pos hposF] at hc2
      simp only [decide_eq_true_eq] at hc2
      rw [if_neg (by omega)] at hr
      exact ih (pos + c) r hv (by omega) hFn hr
    · rw [if_neg hposF] at hc2
      simp only [decide_eq_true_eq] at hc2
      subst hc2
      rw [if_pos rfl] at hr
      have hpF2 : pos = F := by omega
      subst hpF2
      simp only [Option.some.injEq] at hr
      exact hr.symm

lemma readLoop_full (fn : String) (n F : Nat) (sched : List Nat) :
    ∀ pos r, validSched n F sched pos = true → pos ≤ n → n ≤ F →
      readLoop fn n sched pos = some r → r = .ok n := by
  induction sched with
  | nil =>
    intro pos r hv hpn hnF hr
    simp only [readLoop] at hr
    by_cases hnp : n - pos = 0
    · rw [if_pos hnp] at hr
      simp only [Option.some.injEq] at hr
      have : pos = n := by omega
      subst this
      exact hr.symm
    · rw [if_neg hnp] at hr
      exact absurd hr (by simp)
  | cons c rest ih =>
    intro pos r hv hpn hnF hr
    simp only [validSched, Bool.and_eq_true, decide_eq_true_eq] at hv
    obtain ⟨⟨hc1, hc2⟩, hv⟩ := hv
    simp only [readLoop] at hr
    by_cases hnp : n - pos = 0
    · rw [if_pos hnp] at hr
      simp only [Option.some.injEq] at hr
      have : pos = n := by omega
      subst this
      exact hr.symm
    · rw [if_neg hnp] at hr
      have hposF : pos < F := by omega
      rw [if_pos hposF] at hc2
      simp only [decide_eq_true_eq] at hc2
      rw [if_neg (by omega)] at hr
      exact ih (pos + c) r hv (by omega) hnF hr

/-- Claim C5 (code bug): with both hardware events open the reporter does
take the branch that emits the three hardware-derived columns
(`num_counters == EVENT_COUNT`), but the values it prints come from
`counterdiff`, whose loop variable `i` the code never initialises (see
`counterdiff_depends_on_uninitialized_i`).  For the snapshots `snapA`,
`snapB` (cycle delta 4, instruction delta 4): if the indeterminate start
value happens to be the intended `0`, the columns carry the true deltas
`4 cy/B, 4 ins/B, 1 ipc`; at junk start value `2` the loop never writes
`counts[]`, and the columns are still emitted but carry the caller's junk
`100, 100, 1`.  So the claim's "when the columns appear they equal
`Δcycles/(n*m)`, `Δinstructions/(n*m)`, `Δinstructions/Δcycles`" fails on
the code. -/
theorem hw_columns_emitted_with_junk_values :
    (init_counters [some 3, some 4]).num_counters = EVENT_COUNT
    ∧ (print_results (init_counters [some 3, some 4]) 0 (100, 100) snapA snapB 1 1).hw
        = some ((4 : ℚ), (4 : ℚ), (1 : ℚ))
    ∧ (print_results (init_counters [some 3, some 4]) 2 (100, 100) snapA snapB 1 1).hw
        = some ((100 : ℚ), (100 : ℚ), (1 : ℚ))
    ∧ (print_results (init_counters [some 3, some 4]) 2 (100, 100) snapA snapB 1 1).hw
        ≠ some ((4 : ℚ), (4 : ℚ), (1 : ℚ)) := by
  refine ⟨by norm_num [init_counters, EVENT_COUNT], ?_, ?_, ?_⟩
  · norm_num [print_results, init_counters, counterdiff, counterdiffGo, EVENT_COUNT,
      sub64, snapA, snapB, List.getD]
  · norm_num [print_results, init_counters, counterdiff, counterdiffGo, EVENT_COUNT,
      sub64, snapA, snapB, List.getD]
  · norm_num [print_results, init_counters, counterdiff, counterdiffGo, EVENT_COUNT,
      sub64, snapA, snapB, List.getD]

/-- Claim C6: the reported metrics satisfy `ns_per_op = elapsed * 1e9 / m` and
`throughput_MBps = 1e-6 * n * m / elapsed`, and hence
`throughput_MBps * elapsed * 1e6 = n * m`; in the exact rational model the
round-trip identity is exact.  The time-goal hypothesis is what every
accepted run result satisfies (claim C4) and gives `elapsed ≠ 0`. -/
theorem reported_metrics_roundtrip (cfg : CounterConfig) (i0 : Nat) (junk : Nat × Nat)
    (sc ec : CtrSnap) (n m : Nat) (h : TIME_GOAL ≤ tsdiff sc.ts ec.ts) :
    (print_results cfg i0 junk sc ec n m).ns_per_op
        = tsdiff sc.ts ec.ts * 1000000000 / (m : ℚ)
    ∧ (print_results cfg i0 junk sc ec n m).mb_per_s
        = (1 / 1000000) * (n : ℚ) * (m : ℚ) / tsdiff sc.ts ec.ts
    ∧ (print_results cfg i0 junk sc ec n m).mb_per_s * tsdiff sc.ts ec.ts * 1000000
        = (n : ℚ) * (m : ℚ) := by
  have hpos : (0 : ℚ) < tsdiff sc.ts ec.ts :=
    lt_of_lt_of_le (by norm_num [TIME_GOAL]) h
  refine ⟨rfl, rfl, ?_⟩
  show (1 / 1000000) * (n : ℚ) * (m : ℚ) / tsdiff sc.ts ec.ts * tsdiff sc.ts ec.ts
      * 1000000 = (n : ℚ) * (m : ℚ)
  field_simp
  ring

/-- Witness for C6: a 3 s accepted pass over `snapA`, `snapC` satisfies the
round-trip identity. -/
theorem reported_metrics_roundtrip_witness :
    (print_results (init_counters [some 3, some 4]) 0 (100, 100) snapA snapC 7 5).ns_per_op
        = tsdiff snapA.ts snapC.ts * 1000000000 / ((5 : Nat) : ℚ)
    ∧ (print_results (init_counters [some 3, some 4]) 0 (100, 100) snapA snapC 7 5).mb_per_s
        = (1 / 1000000) * ((7 : Nat) : ℚ) * ((5 : Nat) : ℚ) / tsdiff snapA.ts snapC.ts
    ∧ (print_results (init_counters [some 3, some 4]) 0 (100, 100) snapA snapC 7 5).mb_per_s
        * tsdiff snapA.ts snapC.ts * 1000000 = ((7 : Nat) : ℚ) * ((5 : Nat) : ℚ) :=
  reported_metrics_roundtrip (init_counters [some 3, some 4]) 0 (100, 100) snapA snapC 7 5
    (by norm_num [tsdiff, TIME_GOAL, snapA, snapC])

/-- Claim C8 (code bug): for an odd declared byte length `n` the buffer is
`malloc(len * sizeof(char16_t))` with `len = n / 2`, i.e. only `n - 1` bytes,
yet the read loop runs until it has stored `n` bytes, so the final byte lands
outside the allocation.  The second conjunct shows a single full `read`
drives the loop to completion having stored `n` bytes. -/
theorem alloc_undersized_for_odd_n (fn : String) (n : Nat) (h : n % 2 = 1) :
    allocatedBytes n < n ∧ readLoop fn n [n] 0 = some (.ok n) := by
  have hn : ¬ (n = 0) := by omega
  constructor
  · unfold allocatedBytes memory_allocate buffer_len
    omega
  · simp [readLoop, hn, Nat.sub_self]

/-- Witness for C8: at declared length `n = 1` the code allocates 0 bytes and
then stores 1 byte. -/
theorem alloc_undersized_for_odd_n_witness :
    allocatedBytes 1 < 1 ∧ readLoop "in.utf16" 1 [1] 0 = some (.ok 1) :=
  alloc_undersized_for_odd_n "in.utf16" 1 (by decide)

/-- Claim C9: along any read schedule POSIX permits against a file of `F`
bytes, if `F < n` the read loop ends with the short-file diagnostic naming
the `F` bytes read and the `n` expected (and `test_utf16le_validate` returns
`-1`); if `F ≥ n` the loop retries short reads until exactly `n` bytes are
read; and a pass whose `test` call fails makes `run_test` print `FAIL` and
produce no result. -/
theorem short_file_reports_fail (fn : String) (n F : Nat) (sched : List Nat)
    (r : Except String Nat) :
    (validSched n F sched 0 = true → F < n → readLoop fn n sched 0 = some r →
        r = .error (shortMsg fn F n))
    ∧ (validSched n F sched 0 = true → n ≤ F → readLoop fn n sched 0 = some r →
        r = .ok n)
    ∧ (∀ len vres rest m b,
        run_test_loop len vres (.fail :: rest) m b = ⟨.failed, [], []⟩) :=
  ⟨fun hv hFn hr => readLoop_short fn n F sched 0 r hv (by omega) hFn hr,
   fun hv hnF hr => readLoop_full fn n F sched 0 r hv (by omega) hnF hr,
   fun _ _ _ _ _ => rfl⟩

/-- Witness for C9: a file of 2048 bytes against a declared length of 4096
(one 2048-byte read, then end-of-file) yields the short-file error naming
2048 and 4096. -/
theorem short_file_reports_fail_witness :
    (Except.error (shortMsg "data.txt" 2048 4096) : Except String Nat)
      = .error (shortMsg "data.txt" 2048 4096) :=
  (short_file_reports_fail "data.txt" 4096 2048 [2048, 0]
      (.error (shortMsg "data.txt" 2048 4096))).1
    (by decide) (by decide) (by rfl)

/-- Claim C10 (code bug): `counterdiff`'s loop variable `i` is never
initialised (`for (i, j = 0; ...)` only assigns `j`), so the function's
result depends on the indeterminate initial value of `i`: starting at the
intended `0` it computes the deltas `[4, 4]`, while starting at `2` (also a
possible junk value) the loop never runs and the output array keeps its own
junk contents.  The claim's asserted determinism therefore fails. -/
theorem counterdiff_depends_on_uninitialized_i :
    counterdiff [3, 4] 0 [100, 100] [2, 5, 0, 7, 0] [2, 9, 0, 11, 0]
        ≠ counterdiff [3, 4] 2 [100, 100] [2, 5, 0, 7, 0] [2, 9, 0, 11, 0]
    ∧ counterdiff [3, 4] 0 [100, 100] [2, 5, 0, 7, 0] [2, 9, 0, 11, 0] = [4, 4]
    ∧ counterdiff [3, 4] 2 [100, 100] [2, 5, 0, 7, 0] [2, 9, 0, 11, 0] = [100, 100] := by
  refine ⟨?_, ?_, ?_⟩ <;> decide

end Benchmark
